import Mathlib

/-!
Shallow embedding of fs/operations/resume.go (the resume-token cache of a
file-transfer client) and proofs about it.

Conventions of the embedding:
* Go strings are modelled as `List Char` (Go strings hold UTF-8 text and the
  functions here treat them rune-wise; Lean `Char` is a unicode scalar, the
  same value space as a Go rune).
* Go int64 quantities (config sizes, byte positions) are modelled as `Int`;
  file sizes reported by the filesystem walk are non-negative and are
  modelled as `Nat`, cast to `Int` where the code compares against int64.
* Filesystem effects are made explicit: each fallible operating-system call
  becomes a boolean oracle recording whether that call succeeds, and each
  observable side effect (a directory creation, a file creation, an eviction
  pass) becomes a field of an explicit result record.
-/

/-- Go strings, modelled rune-wise. -/
abbrev GoStr := List Char

/-! ## Record codec: marshalResumeJSON / unmarshalResumeJSON

The source serializes the struct resumeJSON (four string fields tagged
fprint, id, hname, hstate) with encoding/json. `json.Marshal` of a struct of
plain strings cannot fail, emits the fields in declaration order with no
whitespace, and escapes string contents as modelled by `encodeStringChar`
below (quotes, backslashes, control characters, the HTML characters and the
line separators U+2028/U+2029). `json.Unmarshal` is modelled on the payloads
the encoder emits: the object with the four keys in declaration order, each
value a JSON string whose escape sequences are decoded by `parseStringBody`.
Surrogate-pair combining for adjacent \u escapes is modelled as a parse
failure; the encoder never emits an escape in the surrogate range. -/

/-- Lowercase hexadecimal digit, as emitted by the Go json encoder. -/
def hexDigit (n : Nat) : Char :=
  if n < 10 then Char.ofNat (48 + n) else Char.ofNat (87 + n)

/-- Encoding of one rune of a string by the Go json encoder
(encodeState.string with the default HTML escaping). -/
def encodeStringChar (c : Char) : List Char :=
  if c = '"' then ['\\', '"']
  else if c = '\\' then ['\\', '\\']
  else if c = '\n' then ['\\', 'n']
  else if c = '\r' then ['\\', 'r']
  else if c = '\t' then ['\\', 't']
  else if c = '<' ∨ c = '>' ∨ c = '&' then
    ['\\', 'u', '0', '0', hexDigit (c.toNat / 16), hexDigit (c.toNat % 16)]
  else if c.toNat < 32 then
    ['\\', 'u', '0', '0', hexDigit (c.toNat / 16), hexDigit (c.toNat % 16)]
  else if c.toNat = 8232 ∨ c.toNat = 8233 then
    ['\\', 'u', '2', '0', '2', hexDigit (c.toNat % 16)]
  else [c]

/-- A JSON string literal: quote, escaped content, quote. -/
def encodeGoString (s : GoStr) : List Char :=
  '"' :: (s.flatMap encodeStringChar ++ ['"'])

/-- Models marshalResumeJSON: json.Marshal of the resumeJSON struct built
from the four arguments. The ctx argument of the source is unused there and
dropped here; the error result is dropped because json.Marshal of a struct
of strings never fails. -/
def marshalResumeJSON (fprint id hashName hashState : GoStr) : GoStr :=
  "\x7b\"fprint\":".data ++ encodeGoString fprint
    ++ ",\"id\":".data ++ encodeGoString id
    ++ ",\"hname\":".data ++ encodeGoString hashName
    ++ ",\"hstate\":".data ++ encodeGoString hashState
    ++ "\x7d".data

/-- Value of one hexadecimal digit, upper or lower case, as accepted by the
Go json decoder. -/
def parseHexDigit (c : Char) : Option Nat :=
  if 48 ≤ c.toNat ∧ c.toNat ≤ 57 then some (c.toNat - 48)
  else if 97 ≤ c.toNat ∧ c.toNat ≤ 102 then some (c.toNat - 87)
  else if 65 ≤ c.toNat ∧ c.toNat ≤ 70 then some (c.toNat - 55)
  else none

/-- Prepend a decoded rune to the result of parsing the rest of a string. -/
def consOpt (c : Char) : Option (List Char × List Char) → Option (List Char × List Char)
  | some (s, rest) => some (c :: s, rest)
  | none => none

/-- Decode the body of a JSON string (after the opening quote) up to and
including the closing quote, returning the decoded content and the
remaining input. Models the string case of the Go json decoder. -/
def parseStringBody : List Char → Option (List Char × List Char)
  | [] => none
  | c :: s =>
    if c = '"' then some ([], s)
    else if c = '\\' then
      match s with
      | [] => none
      | e :: r =>
        if e = '"' then consOpt '"' (parseStringBody r)
        else if e = '\\' then consOpt '\\' (parseStringBody r)
        else if e = '/' then consOpt '/' (parseStringBody r)
        else if e = 'b' then consOpt (Char.ofNat 8) (parseStringBody r)
        else if e = 'f' then consOpt (Char.ofNat 12) (parseStringBody r)
        else if e = 'n' then consOpt '\n' (parseStringBody r)
        else if e = 'r' then consOpt '\r' (parseStringBody r)
        else if e = 't' then consOpt '\t' (parseStringBody r)
        else if e = 'u' then
          match r with
          | h1 :: h2 :: h3 :: h4 :: r2 =>
            match parseHexDigit h1, parseHexDigit h2, parseHexDigit h3, parseHexDigit h4 with
            | some a, some b, some c2, some d =>
              let u := ((a * 16 + b) * 16 + c2) * 16 + d
              if u < 55296 ∨ 57343 < u then consOpt (Char.ofNat u) (parseStringBody r2)
              else none
            | _, _, _, _ => none
          | _ => none
        else none
    else if c.toNat < 32 then none
    else consOpt c (parseStringBody s)

/-- Decode a complete JSON string literal: an opening quote then a body. -/
def parseJSONString : List Char → Option (List Char × List Char)
  | [] => none
  | c :: s => if c = '"' then parseStringBody s else none

/-- Consume an expected literal from the front of the input. -/
def dropLit : List Char → List Char → Option (List Char)
  | [], s => some s
  | _ :: _, [] => none
  | c :: cs, d :: ds => if c = d then dropLit cs ds else none

/-- Models unmarshalResumeJSON: json.Unmarshal of the payload into the
resumeJSON struct, returning the four fields, or none where the source
returns a non-nil error. -/
def unmarshalResumeJSON (data : GoStr) : Option (GoStr × GoStr × GoStr × GoStr) :=
  (dropLit ("\x7b\"fprint\":".data) data).bind fun s1 =>
  (parseJSONString s1).bind fun p1 =>
  (dropLit (",\"id\":".data) p1.2).bind fun s2 =>
  (parseJSONString s2).bind fun p2 =>
  (dropLit (",\"hname\":".data) p2.2).bind fun s3 =>
  (parseJSONString s3).bind fun p3 =>
  (dropLit (",\"hstate\":".data) p3.2).bind fun s4 =>
  (parseJSONString s4).bind fun p4 =>
  (dropLit ("\x7d".data) p4.2).bind fun s5 =>
  if s5 = [] then some (p1.1, p2.1, p3.1, p4.1) else none

/-! ## Path mapper: filepath.Join as used at line 21 of the source

createResumeOpt derives the cache location as
filepath.Join(config.CacheDir, "resume", f.Name(), f.Root(), remote).
On unix, filepath.Join concatenates the non-empty elements with "/" and
applies the lexical filepath.Clean, which removes empty and "." components
and resolves ".." components against the preceding component. -/

/-- Split a path into its slash-separated components (the semantics of
strings.Split with separator "/", rune-wise). -/
def splitSlash : List Char → List (List Char)
  | [] => [[]]
  | c :: rest =>
    match splitSlash rest with
    | [] => [[]]
    | g :: gs => if c = '/' then [] :: g :: gs else (c :: g) :: gs

/-- Join components with slashes (strings.Join with separator "/"). -/
def joinSlash : List (List Char) → List Char
  | [] => []
  | [g] => g
  | g :: gs => g ++ '/' :: joinSlash gs

/-- One step of the lexical cleaning of filepath.Clean: acc holds the
already-emitted components in reverse order. -/
def cleanStep (rooted : Bool) (acc : List (List Char)) (part : List Char) : List (List Char) :=
  if part = [] ∨ part = ['.'] then acc
  else if part = ['.', '.'] then
    match acc with
    | [] => if rooted then [] else [['.', '.']]
    | top :: rest => if top = ['.', '.'] then part :: acc else rest
  else part :: acc

/-- Models path/filepath Clean on unix: resolve "." and ".." components
lexically, collapse separators, keep a leading slash. -/
def goClean (p : List Char) : List Char :=
  let rooted : Bool := match p with | '/' :: _ => true | _ => false
  let comps := (splitSlash p).foldl (cleanStep rooted) []
  let body := joinSlash comps.reverse
  if rooted then '/' :: body
  else if body = [] then ['.'] else body

/-- Models path/filepath Join on unix: drop empty elements, join with "/",
clean. (The Go implementation joins from the first non-empty element
onward and lets Clean collapse the doubled separators left by interior
empty elements; dropping the empty elements first is equivalent because
Clean removes empty components.) -/
def goJoin (elems : List (List Char)) : List Char :=
  let nonEmpty := elems.filter fun e => ¬ e = []
  if nonEmpty.isEmpty then [] else goClean (joinSlash nonEmpty)

/-- The on-disk cache location used by createResumeOpt (line 21):
filepath.Join(config.CacheDir, "resume", f.Name(), f.Root(), remote). -/
def resumeCacheName (cacheDir fName fRoot remote : GoStr) : GoStr :=
  goJoin [cacheDir, "resume".data, fName, fRoot, remote]

/-! ## Eviction manager: cleanCache

The walk of cleanCache collects every regular file under the cache root
with its size and modification time and sums the sizes. If the sum exceeds
MaxResumeCacheSize, the paths are sorted by modification time ascending
with sort.Slice and deleted front-first while the running total (updated
immediately after each deletion) is not yet strictly below the limit.
The walk result is modelled as a list of entries in walk order; sort.Slice
is modelled by its contract (`sortSpecModTime`): it produces some
permutation of the entries that is non-decreasing in modification time —
the Go sort.Slice documentation does not promise stability, so the
permutation is not further determined on ties. -/

/-- One file collected by the cleanCache walk: its path, its size
(info.Size(), non-negative for a regular file) and its modification time
(info.ModTime(), abstracted to an integer timestamp). -/
structure CacheEntry where
  path : String
  size : Nat
  modTime : Int
deriving DecidableEq

/-- Total size of a set of cache files, as summed by the walk. -/
def cacheTotal (entries : List CacheEntry) : Int :=
  (entries.map fun e => (e.size : Int)).sum

/-- The deletion loop of cleanCache: walk the sorted list front-first,
stopping as soon as the running total is strictly below the limit;
otherwise delete the head and decrement the running total by its size
immediately. Returns the surviving entries. -/
def evictLoop (maxResumeCacheSize : Int) : List CacheEntry → Int → List CacheEntry
  | [], _ => []
  | p :: rest, totalCacheSize =>
    if totalCacheSize < maxResumeCacheSize then p :: rest
    else evictLoop maxResumeCacheSize rest (totalCacheSize - (p.size : Int))

/-- Models cleanCache after the walk, acting on the modTime-sorted
permutation of the collected entries: if the total exceeds the limit,
run the deletion loop, else delete nothing. -/
def cleanCache (maxResumeCacheSize : Int) (sortedEntries : List CacheEntry) : List CacheEntry :=
  if cacheTotal sortedEntries > maxResumeCacheSize then
    evictLoop maxResumeCacheSize sortedEntries (cacheTotal sortedEntries)
  else sortedEntries

/-- Non-decreasing modification times: what sort.Slice with less-function
ModTime().Before guarantees about its output. -/
abbrev sortedByModTime (l : List CacheEntry) : Prop :=
  List.Pairwise (fun a b : CacheEntry => a.modTime ≤ b.modTime) l

/-- The contract of the sort.Slice call in cleanCache: the sorted list is
a permutation of the collected entries, non-decreasing in modification
time. Nothing more is guaranteed on ties (sort.Slice is not stable). -/
abbrev sortSpecModTime (entries sortedEntries : List CacheEntry) : Prop :=
  sortedEntries.Perm entries ∧ sortedByModTime sortedEntries

/-! ## Cache store lookup: readResumeCache

The source opens the cache file, and unless the open error is a
does-not-exist error it reads the file, unmarshals the payload, and — only
when the stored fingerprint is non-empty — computes the current fingerprint
of the source object and compares. Every failure (read error, unmarshal
error, empty stored fingerprint, mismatch) falls through to the absent
result ("", "", "", false).

The effects are explicit: fileNotExist is os.IsNotExist of the open error,
readData is the outcome of ioutil.ReadAll (none for a read error), and
currentFingerprint is the value fs.Fingerprint would return; the result
field fingerprintComputed records whether the code reached the call of
fs.Fingerprint at all. -/

/-- Result of readResumeCache, plus the effect flag fingerprintComputed. -/
structure ReadCacheResult where
  resumeID : GoStr
  hashName : GoStr
  hashState : GoStr
  attemptResume : Bool
  fingerprintComputed : Bool
deriving DecidableEq

/-- Models readResumeCache. The first two patterns are the fall-through
returns of the source: the open error is a does-not-exist error, or
ioutil.ReadAll fails. -/
def readResumeCache : Bool → Option GoStr → GoStr → ReadCacheResult
  | true, _, _ => ⟨[], [], [], false, false⟩
  | false, none, _ => ⟨[], [], [], false, false⟩
  | false, some rawData, currentFingerprint =>
    match unmarshalResumeJSON rawData with
    | some (existingFingerprint, resumeID, hashName, hashState) =>
      if existingFingerprint ≠ [] then
        -- fs.Fingerprint(ctx, src, true) is evaluated exactly here
        if existingFingerprint = currentFingerprint then
          ⟨resumeID, hashName, hashState, true, true⟩
        else ⟨[], [], [], false, true⟩
      else ⟨[], [], [], false, false⟩
    | none => ⟨[], [], [], false, false⟩

/-! ## Resume coordinator: createResumeOpt

createResumeOpt builds OptionResume with ID "" and Pos 0, and only when
ci.ResumeLarger >= 0 consults the cache; on a cache hit it calls the
backend resume capability f.Features().Resume and overwrites Pos with the
returned position only when that call returns no error and a position
strictly greater than ResumeLarger. The function has no error result.
resumeResult models the capability call: none for a non-nil error, some
position otherwise. The SetID closure of the struct is modelled separately
by setIDStep below. -/

/-- The ID and Pos fields of fs.OptionResume (SetID modelled separately). -/
structure OptionResume where
  ID : GoStr
  Pos : Int
deriving DecidableEq

/-- Models createResumeOpt. The initial value of resumeOpt is
OptionResume with ID "" and Pos 0; the source mutates Pos in place in the
one successful branch, which appears here as the record with the returned
position. -/
def createResumeOpt (resumeLarger : Int) (fileNotExist : Bool) (readData : Option GoStr)
    (currentFingerprint : GoStr) (resumeResult : Option Int) : OptionResume :=
  if 0 ≤ resumeLarger then
    if (readResumeCache fileNotExist readData currentFingerprint).attemptResume then
      match resumeResult with
      | some position =>
        if resumeLarger < position then { ID := [], Pos := position }
        else { ID := [], Pos := 0 }
      | none => { ID := [], Pos := 0 }
    else { ID := [], Pos := 0 }
  else { ID := [], Pos := 0 }

/-! ## Persistence callback: the closure returned by createSetID

The closure marshals the record (cannot fail for string fields), and when
the payload length is strictly below MaxResumeCacheSize it creates the
cache directory (os.MkdirAll), creates the cache file (os.Create) and
writes the payload. It then — only when the captured cacheCleaned flag is
still false — runs cleanCache, and on success sets the flag.

Each operating-system call gets a success oracle in SetIDEnv. Note on the
write step: the source binds the write error to errWrite but then tests the
variable err, which at that point provably holds nil (the create error was
returned earlier when non-nil), so the guard is dead and a write failure is
never returned; accordingly the result below does not depend on writeOk.
Early returns (mkdir failure, create failure) happen before the cleaning
step, so they leave the flag as it was. -/

/-- Per-invocation arguments and operating-system oracles for one call of
the SetID closure. -/
structure SetIDEnv where
  fingerprint : GoStr
  ID : GoStr
  hashName : GoStr
  hashState : GoStr
  mkdirOk : Bool
  createOk : Bool
  writeOk : Bool
  cleanOk : Bool
deriving DecidableEq

/-- Observable outcome of one call of the SetID closure: the returned
error, the new value of the captured cacheCleaned flag, and whether
cleanCache, os.MkdirAll and os.Create were reached. -/
structure SetIDResult where
  err : Option String
  cacheCleaned : Bool
  cleanInvoked : Bool
  mkdirCalled : Bool
  createCalled : Bool
deriving DecidableEq

/-- The tail of the closure body: run cleanCache when the flag is unset
(returning its error without setting the flag when it fails), then set the
flag and return nil. -/
def finishClean (cacheCleaned cleanOk mkdirCalled createCalled : Bool) : SetIDResult :=
  if cacheCleaned = false then
    if cleanOk = false then
      { err := some "failed to clean resume cache", cacheCleaned := false,
        cleanInvoked := true, mkdirCalled := mkdirCalled, createCalled := createCalled }
    else
      { err := none, cacheCleaned := true, cleanInvoked := true,
        mkdirCalled := mkdirCalled, createCalled := createCalled }
  else
    { err := none, cacheCleaned := true, cleanInvoked := false,
      mkdirCalled := mkdirCalled, createCalled := createCalled }

/-- Models one invocation of the closure returned by createSetID, given the
current value of the captured cacheCleaned flag. -/
def setIDStep (maxResumeCacheSize : Int) (env : SetIDEnv) (cacheCleaned : Bool) : SetIDResult :=
  let data := marshalResumeJSON env.fingerprint env.ID env.hashName env.hashState
  if (data.length : Int) < maxResumeCacheSize then
    if env.mkdirOk = false then
      { err := some "failed to create cache directory", cacheCleaned := cacheCleaned,
        cleanInvoked := false, mkdirCalled := true, createCalled := false }
    else if env.createOk = false then
      { err := some "failed to create cache file", cacheCleaned := cacheCleaned,
        cleanInvoked := false, mkdirCalled := true, createCalled := true }
    else
      -- the write runs here; its error is dropped by the dead errWrite guard
      finishClean cacheCleaned env.cleanOk true true
  else
    finishClean cacheCleaned env.cleanOk false false

/-- Models a sequence of invocations of one closure instance returned by
createSetID: the flag starts false and each call threads it forward. -/
def runSetID (maxResumeCacheSize : Int) : List SetIDEnv → Bool → List SetIDResult
  | [], _ => []
  | env :: rest, cacheCleaned =>
    let r := setIDStep maxResumeCacheSize env cacheCleaned
    r :: runSetID maxResumeCacheSize rest r.cacheCleaned

/-! ## Concrete inputs used in counterexamples and witnesses -/

/-- A size-100 cache file, oldest. -/
def entC2a : CacheEntry := ⟨"t1", 100, 1⟩

/-- A size-200 cache file, middle age. -/
def entC2b : CacheEntry := ⟨"t2", 200, 2⟩

/-- A size-300 cache file, newest. -/
def entC2c : CacheEntry := ⟨"t3", 300, 3⟩

/-- A single size-1 cache file, for the zero-budget boundary. -/
def entC2z : CacheEntry := ⟨"z", 1, 0⟩

/-- A size-2 cache file; its modification time ties with entC9b. -/
def entC9a : CacheEntry := ⟨"a", 2, 5⟩

/-- A size-1 cache file; its modification time ties with entC9a. -/
def entC9b : CacheEntry := ⟨"b", 1, 5⟩

/-- A callback invocation in which every operating-system call succeeds. -/
def envOk : SetIDEnv := ⟨"fp".data, "r1".data, "md5".data, "state1".data, true, true, true, true⟩

/-- A callback invocation in which cleanCache fails. -/
def envCleanFail : SetIDEnv :=
  ⟨"fp".data, "r1".data, "md5".data, "state1".data, true, true, true, false⟩

/-- A callback invocation in which writing the payload to the cache file
fails but everything else succeeds. -/
def envWriteFail : SetIDEnv :=
  ⟨"fp".data, "r1".data, "md5".data, "state1".data, true, true, false, true⟩

/-! ## Theorems -/

/-- C3: the key-path mapping is not injective across distinct remote paths
under one destination: because filepath.Join applies the lexical Clean, the
remote paths "a" and "b/../a" of the same destination map to the same
on-disk cache file. (The mapping is a pure function, so the determinism
half of the claim holds; the collision-freedom half fails on the code.) -/
theorem resumeCacheName_collision :
    resumeCacheName "/cache".data "remote".data "root".data "a".data
      = resumeCacheName "/cache".data "remote".data "root".data "b/../a".data
    ∧ "a".data ≠ "b/../a".data := by
  constructor
  · decide
  · decide

/-- C5: a failure of the write of the encoded record to the cache file is
not reported: with directory creation and file creation succeeding and the
file write failing, the callback returns nil (err = none) because the
source guards the wrapped errWrite with a test of the provably-nil err
variable. The claim (and the spec) say the error must be returned. -/
theorem setID_write_error_dropped :
    envWriteFail.writeOk = false
    ∧ (setIDStep 1000 envWriteFail false).createCalled = true
    ∧ (setIDStep 1000 envWriteFail false).err = none := by decide

/-- C9: the sort.Slice contract does not determine the fate of records
with equal modification times: for two records with identical modification
times and sizes 2 and 1 under limit 2, both orders satisfy the contract of
the sort.Slice call (permutation, non-decreasing modification time), yet
they lead to different surviving sets — so the code does not guarantee a
deterministic, stable tie order as the claim requires. -/
theorem cleanCache_tie_order_unstable :
    sortSpecModTime [entC9a, entC9b] [entC9a, entC9b]
    ∧ sortSpecModTime [entC9a, entC9b] [entC9b, entC9a]
    ∧ cleanCache 2 [entC9a, entC9b] ≠ cleanCache 2 [entC9b, entC9a] := by
  refine ⟨⟨List.Perm.refl _, ?_⟩, ⟨List.Perm.swap _ _ _, ?_⟩, ?_⟩ <;> decide

/-- C2 counterexample: with limit 0 and one record of size 1 (so the sizes
sum to 1 which strictly exceeds the limit), the deletion loop removes every
record and the total remaining size is 0, which is not strictly less than
the limit — the claim as stated fails for a non-positive limit. -/
theorem cleanCache_budget_zero_counterexample :
    sortSpecModTime [entC2z] [entC2z]
    ∧ cacheTotal [entC2z] > 0
    ∧ cleanCache 0 [entC2z] = []
    ∧ ¬ cacheTotal (cleanCache 0 [entC2z]) < 0 := by
  refine ⟨⟨List.Perm.refl _, ?_⟩, ?_, ?_, ?_⟩ <;> decide

/-- C4 counterexample: when the eviction pass triggered by the first call
fails, the cacheCleaned flag is left unset (the error return precedes the
assignment), so the second call triggers cleanCache again: across the two
invocations the eviction pass is triggered twice, not exactly once. -/
theorem setID_clean_retrigger_counterexample :
    (runSetID 1000 [envCleanFail, envOk] false).map SetIDResult.cleanInvoked = [true, true]
    ∧ ((runSetID 1000 [envCleanFail, envOk] false).map SetIDResult.cleanInvoked).count true
        ≠ 1 := by decide

/-- C6 counterexample: when the encoded record (57 bytes here) exceeds the
per-record cap (3), the whole write block is skipped including os.MkdirAll:
no directory setup occurs, contradicting the claim that directory setup
still happens. -/
theorem setID_oversize_no_mkdir_counterexample :
    (3 : Int) < ((marshalResumeJSON envOk.fingerprint envOk.ID envOk.hashName
        envOk.hashState).length : Int)
    ∧ (setIDStep 3 envOk false).mkdirCalled = false := by decide

/-- The deletion loop, started at the true total of its list, keeps exactly
the longest suffix whose sizes sum strictly below the (positive) limit:
the result is a suffix, its total is below the limit, and no longer suffix
has a total below the limit. -/
theorem evictLoop_spec (B : Int) (hB : 0 < B) :
    ∀ l : List CacheEntry,
      evictLoop B l (cacheTotal l) <:+ l
      ∧ cacheTotal (evictLoop B l (cacheTotal l)) < B
      ∧ ∀ t, t <:+ l → cacheTotal t < B →
          t.length ≤ (evictLoop B l (cacheTotal l)).length := by
  intro l
  induction l with
  | nil =>
    refine ⟨List.suffix_refl _, ?_, ?_⟩
    · simpa [evictLoop, cacheTotal] using hB
    · intro t ht _
      exact List.IsSuffix.length_le ht
  | cons p rest ih =>
    by_cases hlt : cacheTotal (p :: rest) < B
    · rw [evictLoop, if_pos hlt]
      exact ⟨List.suffix_refl _, hlt, fun t ht _ => List.IsSuffix.length_le ht⟩
    · have harg : cacheTotal (p :: rest) - (p.size : Int) = cacheTotal rest := by
        simp [cacheTotal]
      rw [evictLoop, if_neg hlt, harg]
      obtain ⟨h1, h2, h3⟩ := ih
      refine ⟨h1.trans (List.suffix_cons p rest), h2, ?_⟩
      intro t ht htot
      rcases List.suffix_cons_iff.mp ht with h | h
      · exact absurd htot (h ▸ hlt)
      · exact h3 t h htot

/-- C2 (amended: the limit is positive): for records whose sizes sum
strictly above the positive limit B, cleanCache on the modTime-sorted
permutation of the collected entries leaves a total strictly below B, and
the survivors are exactly the longest suffix of the sorted list (newest
kept, oldest deleted first) whose sizes sum strictly below B; the running
total is decremented immediately after each deletion (see evictLoop). -/
theorem cleanCache_eviction_correct (entries sortedEntries : List CacheEntry) (B : Int)
    (hperm : sortedEntries.Perm entries)
    (hsorted : sortedByModTime sortedEntries)
    (hover : B < cacheTotal entries)
    (hB : 0 < B) :
    cleanCache B sortedEntries <:+ sortedEntries
    ∧ cacheTotal (cleanCache B sortedEntries) < B
    ∧ ∀ t, t <:+ sortedEntries → cacheTotal t < B →
        t.length ≤ (cleanCache B sortedEntries).length := by
  have htot : cacheTotal sortedEntries = cacheTotal entries := by
    unfold cacheTotal
    exact (hperm.map fun e => (e.size : Int)).sum_eq
  have hcond : cacheTotal sortedEntries > B := by rw [htot]; exact hover
  unfold cleanCache
  rw [if_pos hcond]
  exact evictLoop_spec B hB sortedEntries

/-- Witness for C2 at the inputs of the spec scenario: sizes 100, 200, 300
with increasing modification times, limit 350; the theorem applies and the
survivor set is the single newest record of size 300. -/
theorem cleanCache_eviction_correct_witness :
    ((0 : Int) < 350 ∧ (350 : Int) < cacheTotal [entC2a, entC2b, entC2c]
      ∧ sortedByModTime [entC2a, entC2b, entC2c])
    ∧ (cleanCache 350 [entC2a, entC2b, entC2c] <:+ [entC2a, entC2b, entC2c]
      ∧ cacheTotal (cleanCache 350 [entC2a, entC2b, entC2c]) < 350
      ∧ ∀ t, t <:+ [entC2a, entC2b, entC2c] → cacheTotal t < 350 →
          t.length ≤ (cleanCache 350 [entC2a, entC2b, entC2c]).length)
    ∧ cleanCache 350 [entC2a, entC2b, entC2c] = [entC2c] :=
  ⟨⟨by decide, by decide, by decide⟩,
    cleanCache_eviction_correct [entC2a, entC2b, entC2c] [entC2a, entC2b, entC2c] 350
      (List.Perm.refl _) (by decide) (by decide) (by decide),
    by decide⟩

/-- A call of the closure with the captured flag already set never invokes
cleanCache again and leaves the flag set, whatever the oracles say. -/
theorem setIDStep_cleaned_stays (maxResumeCacheSize : Int) (env : SetIDEnv) :
    (setIDStep maxResumeCacheSize env true).cacheCleaned = true
    ∧ (setIDStep maxResumeCacheSize env true).cleanInvoked = false := by
  unfold setIDStep finishClean
  split_ifs <;>
    simp_all [apply_ite SetIDResult.cacheCleaned, apply_ite SetIDResult.cleanInvoked]

/-- A first call of the closure (flag unset) in which directory creation,
file creation and the eviction pass succeed invokes cleanCache and sets
the flag. -/
theorem setIDStep_first (maxResumeCacheSize : Int) (env : SetIDEnv)
    (hm : env.mkdirOk = true) (hc : env.createOk = true) (hcl : env.cleanOk = true) :
    (setIDStep maxResumeCacheSize env false).cleanInvoked = true
    ∧ (setIDStep maxResumeCacheSize env false).cacheCleaned = true := by
  unfold setIDStep finishClean
  split_ifs <;>
    simp_all [apply_ite SetIDResult.cacheCleaned, apply_ite SetIDResult.cleanInvoked]

/-- Once the flag is set, a whole run of further calls never invokes
cleanCache. -/
theorem runSetID_after_cleaned (maxResumeCacheSize : Int) :
    ∀ es : List SetIDEnv,
      (runSetID maxResumeCacheSize es true).map SetIDResult.cleanInvoked
        = List.replicate es.length false := by
  intro es
  induction es with
  | nil => simp [runSetID]
  | cons e es ih =>
    rw [runSetID]
    simp only [List.map_cons, (setIDStep_cleaned_stays maxResumeCacheSize e).1,
      (setIDStep_cleaned_stays maxResumeCacheSize e).2, ih, List.length_cons,
      List.replicate_succ]

/-- C4 (amended: every invocation reaches the cleaning step with its
directory and file creation succeeding, and the eviction pass itself
succeeds): across K > 1 invocations of one closure instance, cleanCache is
invoked exactly once, by the first call, and by none of the later calls.
(When the triggered pass fails, the flag stays unset and the next call
triggers cleanCache again — see the counterexample.) -/
theorem setID_clean_once (maxResumeCacheSize : Int) (envs : List SetIDEnv)
    (hK : 1 < envs.length)
    (hok : ∀ e ∈ envs, e.mkdirOk = true ∧ e.createOk = true ∧ e.cleanOk = true) :
    (runSetID maxResumeCacheSize envs false).map SetIDResult.cleanInvoked
      = true :: List.replicate (envs.length - 1) false := by
  cases envs with
  | nil => simp at hK
  | cons e es =>
    obtain ⟨hm, hc, hcl⟩ := hok e (by simp)
    have h1 := setIDStep_first maxResumeCacheSize e hm hc hcl
    rw [runSetID]
    simp only [List.map_cons, h1.1, h1.2, runSetID_after_cleaned, List.length_cons,
      Nat.add_sub_cancel]

/-- Witness for C4: two all-success invocations of one closure instance;
the map of cleanInvoked flags is [true, false]. -/
theorem setID_clean_once_witness :
    (1 < ([envOk, envOk] : List SetIDEnv).length
      ∧ ∀ e ∈ ([envOk, envOk] : List SetIDEnv),
          e.mkdirOk = true ∧ e.createOk = true ∧ e.cleanOk = true)
    ∧ (runSetID 1000 [envOk, envOk] false).map SetIDResult.cleanInvoked
        = true :: List.replicate (([envOk, envOk] : List SetIDEnv).length - 1) false :=
  ⟨⟨by decide, by decide⟩, setID_clean_once 1000 [envOk, envOk] (by decide) (by decide)⟩

/-- C6 (amended: no directory setup occurs either): when the encoded record
strictly exceeds the per-record cap, the callback skips the write — the
cache file is neither created nor modified — and also skips directory
creation; provided the eviction pass succeeds when triggered, the call
returns no error. -/
theorem setID_oversize_skips_all (maxResumeCacheSize : Int) (env : SetIDEnv)
    (cacheCleaned : Bool)
    (hsize : maxResumeCacheSize <
      ((marshalResumeJSON env.fingerprint env.ID env.hashName env.hashState).length : Int))
    (hcl : env.cleanOk = true) :
    (setIDStep maxResumeCacheSize env cacheCleaned).createCalled = false
    ∧ (setIDStep maxResumeCacheSize env cacheCleaned).mkdirCalled = false
    ∧ (setIDStep maxResumeCacheSize env cacheCleaned).err = none := by
  unfold setIDStep finishClean
  have hns : ¬ ((marshalResumeJSON env.fingerprint env.ID env.hashName
      env.hashState).length : Int) < maxResumeCacheSize := by omega
  rw [if_neg hns]
  cases cacheCleaned <;> simp [hcl]

/-- Witness for C6: the all-success invocation with cap 3 (the payload is
57 bytes): no file creation, no directory creation, no error. -/
theorem setID_oversize_skips_all_witness :
    ((3 : Int) < ((marshalResumeJSON envOk.fingerprint envOk.ID envOk.hashName
        envOk.hashState).length : Int)
      ∧ envOk.cleanOk = true)
    ∧ ((setIDStep 3 envOk false).createCalled = false
      ∧ (setIDStep 3 envOk false).mkdirCalled = false
      ∧ (setIDStep 3 envOk false).err = none) :=
  ⟨⟨by decide, by decide⟩, setID_oversize_skips_all 3 envOk false (by decide) (by decide)⟩

/-- C7: createResumeOpt absorbs every failure. First conjunct: when the
backend resume capability errors, or returns a position not exceeding the
ResumeLarger threshold, the returned start position is 0; the function has
no error result, so no error reaches the caller by construction. Second
conjunct: whenever the cache lookup reports absent (missing file, read
failure, decode failure, empty or mismatched fingerprint), the position is
0 regardless of the capability outcome. -/
theorem createResumeOpt_absorbs_failures (resumeLarger : Int) (fileNotExist : Bool)
    (readData : Option GoStr) (cur : GoStr) (resumeResult : Option Int) :
    ((resumeResult = none ∨ ∃ p, resumeResult = some p ∧ p ≤ resumeLarger) →
      (createResumeOpt resumeLarger fileNotExist readData cur resumeResult).Pos = 0)
    ∧ ((readResumeCache fileNotExist readData cur).attemptResume = false →
      (createResumeOpt resumeLarger fileNotExist readData cur resumeResult).Pos = 0) := by
  constructor
  · intro h
    unfold createResumeOpt
    rcases h with h | ⟨p, hp, hple⟩
    · subst h
      split_ifs <;> rfl
    · subst hp
      have hnp : ¬ resumeLarger < p := by omega
      split_ifs with h0 hat <;> simp [hnp]
  · intro h
    unfold createResumeOpt
    split_ifs with h0 hat
    · rw [h] at hat
      exact absurd hat (by decide)
    · rfl
    · rfl

/-- Witness for C7: a capability error (none) with an absent cache yields
position 0. -/
theorem createResumeOpt_absorbs_failures_witness :
    (createResumeOpt 0 true none [] none).Pos = 0 :=
  (createResumeOpt_absorbs_failures 0 true none [] none).1 (Or.inl rfl)

/-- C1: fingerprint gating of the cache lookup. First conjunct: whenever
the stored record decodes to a fingerprint different from the current one,
the lookup reports absent (attemptResume = false), whatever the other
fields hold. Second conjunct: the lookup reports a record only if the file
is present, its bytes were read, they decode, and the stored fingerprint
equals the current one. -/
theorem readResumeCache_fingerprint_gating (fileNotExist : Bool) (readData : Option GoStr)
    (cur : GoStr) :
    (∀ raw fp id hn hs, readData = some raw →
      unmarshalResumeJSON raw = some (fp, id, hn, hs) → fp ≠ cur →
      (readResumeCache fileNotExist readData cur).attemptResume = false)
    ∧ ((readResumeCache fileNotExist readData cur).attemptResume = true →
      fileNotExist = false ∧ ∃ raw fp id hn hs, readData = some raw
        ∧ unmarshalResumeJSON raw = some (fp, id, hn, hs) ∧ fp = cur) := by
  constructor
  · intro raw fp id hn hs hdata hdec hne
    subst hdata
    cases fileNotExist
    · rw [readResumeCache, hdec]
      by_cases h1 : fp = []
      · simp [h1]
      · simp [h1, hne]
    · rfl
  · intro h
    cases fileNotExist
    · cases readData with
      | none => exact absurd h (by simp [readResumeCache])
      | some raw =>
        refine ⟨rfl, raw, ?_⟩
        rw [readResumeCache] at h
        cases hdec : unmarshalResumeJSON raw with
        | none => rw [hdec] at h; exact absurd h (by simp)
        | some q =>
          obtain ⟨fp, id, hn, hs⟩ := q
          rw [hdec] at h
          by_cases h1 : fp = []
          · simp [h1] at h
          · by_cases h2 : fp = cur
            · exact ⟨fp, id, hn, hs, rfl, rfl, h2⟩
            · simp [h1, h2] at h
    · exact absurd h (by simp [readResumeCache])

/-- Witness for C1: a cached record with fingerprint "x" looked up with
current fingerprint "y" is reported absent. -/
theorem readResumeCache_fingerprint_gating_witness :
    (readResumeCache false (some (marshalResumeJSON "x".data "i".data "h".data "s".data))
        "y".data).attemptResume = false :=
  (readResumeCache_fingerprint_gating false
      (some (marshalResumeJSON "x".data "i".data "h".data "s".data)) "y".data).1
    (marshalResumeJSON "x".data "i".data "h".data "s".data)
    "x".data "i".data "h".data "s".data rfl (by decide) (by decide)

/-- C10: a cached record whose stored fingerprint is the empty string is
never used: the lookup reports absent even when the current fingerprint is
also empty (the theorem covers an arbitrary current fingerprint, so in
particular the empty one), and the current fingerprint is not computed at
all (the fs.Fingerprint call sits inside the non-empty branch). -/
theorem readResumeCache_empty_fingerprint (fileNotExist : Bool) (readData : Option GoStr)
    (cur raw id hn hs : GoStr)
    (hdata : readData = some raw)
    (hdec : unmarshalResumeJSON raw = some ([], id, hn, hs)) :
    (readResumeCache fileNotExist readData cur).attemptResume = false
    ∧ (readResumeCache fileNotExist readData cur).fingerprintComputed = false := by
  subst hdata
  cases fileNotExist
  · rw [readResumeCache, hdec]
    simp
  · exact ⟨rfl, rfl⟩

/-- Witness for C10: a record marshalled with fingerprint "" looked up
with current fingerprint "" is reported absent without computing the
current fingerprint. -/
theorem readResumeCache_empty_fingerprint_witness :
    (readResumeCache false (some (marshalResumeJSON [] "i".data "h".data "s".data))
        []).attemptResume = false
    ∧ (readResumeCache false (some (marshalResumeJSON [] "i".data "h".data "s".data))
        []).fingerprintComputed = false :=
  readResumeCache_empty_fingerprint false
    (some (marshalResumeJSON [] "i".data "h".data "s".data)) []
    (marshalResumeJSON [] "i".data "h".data "s".data)
    "i".data "h".data "s".data rfl (by decide)

/-- A closing quote ends the string body. -/
theorem psb_quote (tail : List Char) : parseStringBody ('"' :: tail) = some ([], tail) := by
  rcases tail with _ | ⟨a, _ | ⟨b, _ | ⟨c, _ | ⟨d, _ | ⟨e, t⟩⟩⟩⟩⟩ <;> simp [parseStringBody]

/-- Decoding a quote escape. -/
theorem psb_escQ (tail : List Char) :
    parseStringBody ('\\' :: '"' :: tail) = consOpt '"' (parseStringBody tail) := by
  rcases tail with _ | ⟨a, _ | ⟨b, _ | ⟨c, _ | ⟨d, t⟩⟩⟩⟩ <;> simp [parseStringBody]

/-- Decoding a backslash escape. -/
theorem psb_escB (tail : List Char) :
    parseStringBody ('\\' :: '\\' :: tail) = consOpt '\\' (parseStringBody tail) := by
  rcases tail with _ | ⟨a, _ | ⟨b, _ | ⟨c, _ | ⟨d, t⟩⟩⟩⟩ <;> simp [parseStringBody]

/-- Decoding a newline escape. -/
theorem psb_escN (tail : List Char) :
    parseStringBody ('\\' :: 'n' :: tail) = consOpt '\n' (parseStringBody tail) := by
  rcases tail with _ | ⟨a, _ | ⟨b, _ | ⟨c, _ | ⟨d, t⟩⟩⟩⟩ <;> simp [parseStringBody]

/-- Decoding a carriage-return escape. -/
theorem psb_escR (tail : List Char) :
    parseStringBody ('\\' :: 'r' :: tail) = consOpt '\r' (parseStringBody tail) := by
  rcases tail with _ | ⟨a, _ | ⟨b, _ | ⟨c, _ | ⟨d, t⟩⟩⟩⟩ <;> simp [parseStringBody]

/-- Decoding a tab escape. -/
theorem psb_escT (tail : List Char) :
    parseStringBody ('\\' :: 't' :: tail) = consOpt '\t' (parseStringBody tail) := by
  rcases tail with _ | ⟨a, _ | ⟨b, _ | ⟨c, _ | ⟨d, t⟩⟩⟩⟩ <;> simp [parseStringBody]

/-- An unescaped rune decodes to itself. -/
theorem psb_plain (c : Char) (tail : List Char) (h1 : ¬ c = '"') (h2 : ¬ c = '\\')
    (h3 : ¬ c.toNat < 32) :
    parseStringBody (c :: tail) = consOpt c (parseStringBody tail) := by
  rcases tail with _ | ⟨a, _ | ⟨b, _ | ⟨c2, _ | ⟨d, _ | ⟨e, t⟩⟩⟩⟩⟩ <;>
    simp [parseStringBody, h1, h2, h3]

/-- Decoding a digit the encoder emitted gives back its value. -/
theorem parseHexDigit_hexDigit (n : Nat) (h : n < 16) : parseHexDigit (hexDigit n) = some n := by
  interval_cases n <;> decide

/-- Decoding a four-digit unicode escape below the surrogate range. -/
theorem psb_u (c1 c2 c3 c4 : Char) (v1 v2 v3 v4 : Nat) (tail : List Char)
    (e1 : parseHexDigit c1 = some v1) (e2 : parseHexDigit c2 = some v2)
    (e3 : parseHexDigit c3 = some v3) (e4 : parseHexDigit c4 = some v4)
    (hv : ((v1 * 16 + v2) * 16 + v3) * 16 + v4 < 55296) :
    parseStringBody ('\\' :: 'u' :: c1 :: c2 :: c3 :: c4 :: tail)
      = consOpt (Char.ofNat (((v1 * 16 + v2) * 16 + v3) * 16 + v4)) (parseStringBody tail) := by
  simp [parseStringBody, e1, e2, e3, e4, hv]

/-- Decoding the two-digit unicode escape of a rune below 256. -/
theorem psb_u00_char (c : Char) (tail : List Char) (hc : c.toNat < 256) :
    parseStringBody ('\\' :: 'u' :: '0' :: '0' ::
        hexDigit (c.toNat / 16) :: hexDigit (c.toNat % 16) :: tail)
      = consOpt c (parseStringBody tail) := by
  rw [psb_u '0' '0' (hexDigit (c.toNat / 16)) (hexDigit (c.toNat % 16)) 0 0
      (c.toNat / 16) (c.toNat % 16) tail (by decide) (by decide)
      (parseHexDigit_hexDigit _ (by omega)) (parseHexDigit_hexDigit _ (by omega)) (by omega)]
  have h : ((0 * 16 + 0) * 16 + c.toNat / 16) * 16 + c.toNat % 16 = c.toNat := by omega
  rw [h, Char.ofNat_toNat]

/-- A rune is determined by its scalar value. -/
theorem char_eq_of_toNat (c : Char) (n : Nat) (h : c.toNat = n) : c = Char.ofNat n := by
  rw [← h, Char.ofNat_toNat]


/-- Value of the encoder on an unlisted control rune. -/
theorem encodeStringChar_ctrl (c : Char) (h1 : ¬ c = '"') (h2 : ¬ c = '\\') (h3 : ¬ c = '\n')
    (h4 : ¬ c = '\r') (h5 : ¬ c = '\t') (h6 : ¬ (c = '<' ∨ c = '>' ∨ c = '&'))
    (h7 : c.toNat < 32) :
    encodeStringChar c = ['\\', 'u', '0', '0', hexDigit (c.toNat / 16), hexDigit (c.toNat % 16)] := by
  unfold encodeStringChar
  rw [if_neg h1, if_neg h2, if_neg h3, if_neg h4, if_neg h5, if_neg h6, if_pos h7]

/-- Value of the encoder on a rune needing no escape. -/
theorem encodeStringChar_plain (c : Char) (h1 : ¬ c = '"') (h2 : ¬ c = '\\') (h3 : ¬ c = '\n')
    (h4 : ¬ c = '\r') (h5 : ¬ c = '\t') (h6 : ¬ (c = '<' ∨ c = '>' ∨ c = '&'))
    (h7 : ¬ c.toNat < 32) (h8 : ¬ (c.toNat = 8232 ∨ c.toNat = 8233)) :
    encodeStringChar c = [c] := by
  unfold encodeStringChar
  rw [if_neg h1, if_neg h2, if_neg h3, if_neg h4, if_neg h5, if_neg h6, if_neg h7, if_neg h8]

/-- Decoding inverts the encoding of one rune, whatever follows. -/
theorem psb_encodeChar (c : Char) (tail : List Char) :
    parseStringBody (encodeStringChar c ++ tail) = consOpt c (parseStringBody tail) := by
  by_cases h1 : c = '"'
  · subst h1
    rw [show encodeStringChar '"' = ['\\', '"'] from by decide]
    exact psb_escQ tail
  by_cases h2 : c = '\\'
  · subst h2
    rw [show encodeStringChar '\\' = ['\\', '\\'] from by decide]
    exact psb_escB tail
  by_cases h3 : c = '\n'
  · subst h3
    rw [show encodeStringChar '\n' = ['\\', 'n'] from by decide]
    exact psb_escN tail
  by_cases h4 : c = '\r'
  · subst h4
    rw [show encodeStringChar '\r' = ['\\', 'r'] from by decide]
    exact psb_escR tail
  by_cases h5 : c = '\t'
  · subst h5
    rw [show encodeStringChar '\t' = ['\\', 't'] from by decide]
    exact psb_escT tail
  by_cases h6a : c = '<'
  · subst h6a
    rw [show encodeStringChar '<'
        = ['\\', 'u', '0', '0', hexDigit ('<'.toNat / 16), hexDigit ('<'.toNat % 16)]
      from by decide]
    exact psb_u00_char '<' tail (by decide)
  by_cases h6b : c = '>'
  · subst h6b
    rw [show encodeStringChar '>'
        = ['\\', 'u', '0', '0', hexDigit ('>'.toNat / 16), hexDigit ('>'.toNat % 16)]
      from by decide]
    exact psb_u00_char '>' tail (by decide)
  by_cases h6c : c = '&'
  · subst h6c
    rw [show encodeStringChar '&'
        = ['\\', 'u', '0', '0', hexDigit ('&'.toNat / 16), hexDigit ('&'.toNat % 16)]
      from by decide]
    exact psb_u00_char '&' tail (by decide)
  have h6 : ¬ (c = '<' ∨ c = '>' ∨ c = '&') := by tauto
  by_cases h7 : c.toNat < 32
  · rw [encodeStringChar_ctrl c h1 h2 h3 h4 h5 h6 h7]
    exact psb_u00_char c tail (by omega)
  by_cases h8a : c.toNat = 8232
  · rw [char_eq_of_toNat c _ h8a]
    rw [show encodeStringChar (Char.ofNat 8232) = ['\\', 'u', '2', '0', '2', '8'] from by decide]
    simp only [List.cons_append, List.nil_append]
    rw [psb_u '2' '0' '2' '8' 2 0 2 8 tail (by decide) (by decide) (by decide) (by decide)
      (by norm_num)]
  by_cases h8b : c.toNat = 8233
  · rw [char_eq_of_toNat c _ h8b]
    rw [show encodeStringChar (Char.ofNat 8233) = ['\\', 'u', '2', '0', '2', '9'] from by decide]
    simp only [List.cons_append, List.nil_append]
    rw [psb_u '2' '0' '2' '9' 2 0 2 9 tail (by decide) (by decide) (by decide) (by decide)
      (by norm_num)]
  have h8 : ¬ (c.toNat = 8232 ∨ c.toNat = 8233) := by tauto
  rw [encodeStringChar_plain c h1 h2 h3 h4 h5 h6 h7 h8]
  exact psb_plain c tail h1 h2 h7

/-- Decoding inverts the encoding of a whole string body. -/
theorem parseStringBody_encode (rest : List Char) :
    ∀ s : List Char,
      parseStringBody (s.flatMap encodeStringChar ++ ('"' :: rest)) = some (s, rest) := by
  intro s
  induction s with
  | nil => simp [psb_quote]
  | cons c cs ih =>
    rw [List.flatMap_cons, List.append_assoc, psb_encodeChar, ih]
    rfl

/-- Consuming a literal from input that starts with it leaves the rest. -/
theorem dropLit_append (l s : List Char) : dropLit l (l ++ s) = some s := by
  induction l with
  | nil => rfl
  | cons c cs ih => simp [dropLit, ih]

/-- Consuming a literal from exactly itself leaves nothing. -/
theorem dropLit_self (l : List Char) : dropLit l l = some [] := by
  have h := dropLit_append l []
  rwa [List.append_nil] at h

/-- Decoding inverts the encoding of a JSON string literal. -/
theorem parseJSONString_encode (v X : List Char) :
    parseJSONString (encodeGoString v ++ X) = some (v, X) := by
  have h : encodeGoString v ++ X = '"' :: (v.flatMap encodeStringChar ++ ('"' :: X)) := by
    simp [encodeGoString]
  rw [h]
  simp [parseJSONString, parseStringBody_encode]

/-- C8: the codec round-trips: for arbitrary values of the four string
fields, including empty strings and strings of JSON-special characters,
unmarshalResumeJSON of marshalResumeJSON returns the original four fields
with no error. -/
theorem resumeJSON_round_trip (fprint id hashName hashState : GoStr) :
    unmarshalResumeJSON (marshalResumeJSON fprint id hashName hashState)
      = some (fprint, id, hashName, hashState) := by
  unfold marshalResumeJSON unmarshalResumeJSON
  simp only [List.append_assoc, dropLit_append, dropLit_self, parseJSONString_encode,
    Option.some_bind]
  exact if_pos trivial
